import Mathlib

/-!
Verification of the devbot heuristic code-analysis core
(src/core/analyzers.py and its call sites in src/cogs/).

The Python source is shallowly embedded: each analyzer becomes a pure Lean
function over the file text (a `String`, i.e. a sequence of code points,
matching a Python `str`).  Regular-expression searches from the source are
hand-compiled to character-list scanners; each scanner carries the original
pattern in a comment.  Character classes follow the ASCII reading of
Python regexes (all inputs appearing in this development are ASCII).
-/

/-- Python ASCII whitespace, the characters matched by `\s` and removed by
`str.strip()` on ASCII text. -/
def pyIsSpace (c : Char) : Bool :=
  c == ' ' || c == '\t' || c == '\n' || c == '\r' || c == '\x0b' || c == '\x0c'

/-- `\w` (ASCII reading): letters, digits, underscore. -/
def isWordChar (c : Char) : Bool :=
  c.isAlpha || c.isDigit || c == '_'

/-- Match the literal `lit` at the head of `s`; on success return the rest. -/
def dropLitOpt : List Char → List Char → Option (List Char)
  | [], s => some s
  | _ :: _, [] => none
  | c :: cs, d :: ds => if c == d then dropLitOpt cs ds else none

/-- Python substring test `pat in s` on character lists. -/
def strContainsL : List Char → List Char → Bool
  | s, pat =>
    (dropLitOpt pat s).isSome ||
      match s with
      | [] => false
      | _ :: t => strContainsL t pat

/-- Python substring test `pat in s`. -/
def strContains (s pat : String) : Bool :=
  strContainsL s.data pat.data

/-- Python `str.strip()` (ASCII whitespace). -/
def pyStrip (s : String) : String :=
  String.mk (((s.data.dropWhile pyIsSpace).reverse.dropWhile pyIsSpace).reverse)

/-- Python `s.replace(pat, '')`: remove every non-overlapping occurrence
of a nonempty `pat`, scanning left to right.  Structural on a fuel that
the caller sets to the text length: every step consumes at least one
character, so the fuel never runs out. -/
def removeAllFuel (pat : List Char) : Nat → List Char → List Char
  | _, [] => []
  | 0, s => s
  | fuel + 1, c :: t =>
    match pat, dropLitOpt pat (c :: t) with
    | _ :: _, some rest => removeAllFuel pat fuel rest
    | _, _ => c :: removeAllFuel pat fuel t

/-- Python `s.replace(pat, '')` on strings. -/
def removeAll (s pat : String) : String :=
  String.mk (removeAllFuel pat.data s.data.length s.data)

/-- Python `s.split(sep)` for a nonempty separator, keeping empty
segments (`cur` holds the current segment, reversed); fuel as above. -/
def pySplitAux (sep : List Char) : Nat → List Char → List Char → List String
  | _, cur, [] => [String.mk cur.reverse]
  | 0, cur, s => [String.mk (cur.reverse ++ s)]
  | fuel + 1, cur, c :: t =>
    match sep, dropLitOpt sep (c :: t) with
    | _ :: _, some rest => String.mk cur.reverse :: pySplitAux sep fuel [] rest
    | _, _ => pySplitAux sep fuel (c :: cur) t

/-- Python `s.split(sep)` on strings. -/
def pySplit (s sep : String) : List String :=
  pySplitAux sep.data s.data.length [] s.data

/-- Python `str.lower()` (ASCII mapping). -/
def strLower (s : String) : String :=
  String.mk (s.data.map Char.toLower)

/-- Python `s.startswith(pat)`. -/
def strStartsWith (s pat : String) : Bool :=
  (dropLitOpt pat.data s.data).isSome

/-- Python `s.endswith(pat)`. -/
def strEndsWith (s pat : String) : Bool :=
  (dropLitOpt pat.data.reverse s.data.reverse).isSome

/-- `xs` is contained (as a set) in `ys`; Boolean form so that theorems
about it carry no propositional hypotheses. -/
def listSubsetB (xs ys : List String) : Bool :=
  decide (∀ x ∈ xs, x ∈ ys)

theorem listSubsetB_iff (xs ys : List String) :
    listSubsetB xs ys = true ↔ ∀ x ∈ xs, x ∈ ys := by
  simp [listSubsetB]

/-!
## Python analyzer (`CodeAnalyzer.analyze_python_file`)

The analyzer consumes the result of `ast.parse`.  The syntax tree is
embedded as `PyNode`; only the node shapes the analyzer inspects
(`Import`, `ImportFrom`, `FunctionDef`, `ClassDef`, `Name`, `Call`) are
distinguished, every other node kind becomes `other` and contributes only
its children to the traversal.  `ast.walk` is breadth-first; `walkBFS`
reproduces that queue-based traversal.  `alias` and `ctx` child nodes are
omitted from the traversal since the analyzer matches none of them.
-/

/-- A Python AST node as seen by `analyze_python_file`.  For `imp` and
`impFrom`, each alias is `(name, asname)`.  For `funcDef`/`classDef` the
list holds all walked children (arguments, body, decorators).  For
`name`, `isLoad` records whether the context is `ast.Load`. -/
inductive PyNode where
  | imp (names : List (String × Option String))
  | impFrom (module : Option String) (names : List (String × Option String))
  | funcDef (nm : String) (body : List PyNode)
  | classDef (nm : String) (body : List PyNode)
  | name (id : String) (isLoad : Bool)
  | call (func : PyNode) (args : List PyNode)
  | other (children : List PyNode)

/-- Children of a node, in the order `ast.iter_child_nodes` yields the
children that matter to the analyzer. -/
def pyChildren : PyNode → List PyNode
  | .imp _ => []
  | .impFrom _ _ => []
  | .funcDef _ b => b
  | .classDef _ b => b
  | .name _ _ => []
  | .call f a => f :: a
  | .other c => c

mutual
def pySize : PyNode → Nat
  | .imp _ => 1
  | .impFrom _ _ => 1
  | .funcDef _ b => 1 + pySizeList b
  | .classDef _ b => 1 + pySizeList b
  | .name _ _ => 1
  | .call f a => 1 + pySize f + pySizeList a
  | .other c => 1 + pySizeList c
def pySizeList : List PyNode → Nat
  | [] => 0
  | n :: ns => pySize n + pySizeList ns
end

theorem pySizeList_append (a b : List PyNode) :
    pySizeList (a ++ b) = pySizeList a + pySizeList b := by
  induction a with
  | nil => simp [pySizeList]
  | cons n ns ih => simp [pySizeList, ih]; omega

theorem pyChildren_size_lt (n : PyNode) : pySizeList (pyChildren n) < pySize n := by
  cases n <;> simp [pyChildren, pySize, pySizeList]

theorem pySize_pos (n : PyNode) : 0 < pySize n := by
  cases n <;> simp [pySize]

/-- The queue loop of `ast.walk`, structural on a fuel.  Each step
dequeues exactly one node and enqueues its children, so the loop runs
once per node of the forest; `pySizeList q` bounds that count. -/
def walkBFSFuel : Nat → List PyNode → List PyNode
  | _, [] => []
  | 0, _ => []
  | fuel + 1, n :: rest => n :: walkBFSFuel fuel (rest ++ pyChildren n)

/-- `ast.walk`: breadth-first traversal.  The queue starts from the
module body (the `Module` node itself matches none of the analyzer's
`isinstance` tests, so starting from its children is equivalent). -/
def walkBFS (q : List PyNode) : List PyNode :=
  walkBFSFuel (pySizeList q) q

theorem mem_walkBFSFuel (fuel : Nat) :
    ∀ q : List PyNode, pySizeList q ≤ fuel → ∀ n ∈ q, n ∈ walkBFSFuel fuel q := by
  induction fuel with
  | zero =>
    intro q hq n hn
    cases q with
    | nil => simp at hn
    | cons m rest =>
      have := pySize_pos m
      simp [pySizeList] at hq
      omega
  | succ fuel ih =>
    intro q hq n hn
    cases q with
    | nil => simp at hn
    | cons m rest =>
      simp only [walkBFSFuel]
      rcases List.mem_cons.mp hn with h | h
      · exact h ▸ List.mem_cons_self _ _
      · refine List.mem_cons_of_mem _
          (ih (rest ++ pyChildren m) ?_ n (List.mem_append_left _ h))
        have h1 := pyChildren_size_lt m
        rw [pySizeList_append]
        simp only [pySizeList] at hq
        omega

theorem mem_walkBFS (q : List PyNode) (n : PyNode) (h : n ∈ q) : n ∈ walkBFS q :=
  mem_walkBFSFuel (pySizeList q) q (Nat.le_refl _) n h

/-- `alias.asname if alias.asname else alias.name` (a `None` or empty
asname falls back to the original name). -/
def aliasChosen : String × Option String → String
  | (nm, some a) => if a == "" then nm else a
  | (nm, none) => nm

/-- Names contributed to `analysis['imports']` by one walked node
(`ast.Import` / `ast.ImportFrom` with a truthy `module`). -/
def importNames : PyNode → List String
  | .imp names => names.map aliasChosen
  | .impFrom mo names =>
    match mo with
    | some m => if m == "" then [] else names.map aliasChosen
    | none => []
  | _ => []

/-- The name of a `FunctionDef` node, if the node is one. -/
def fnName : PyNode → Option String
  | .funcDef nm _ => some nm
  | _ => none

def clsName : PyNode → Option String
  | .classDef nm _ => some nm
  | _ => none

def pyImports (body : List PyNode) : List String :=
  ((walkBFS body).map importNames).flatten

def pyFunctions (body : List PyNode) : List String :=
  (walkBFS body).filterMap fnName

def pyClasses (body : List PyNode) : List String :=
  (walkBFS body).filterMap clsName

/-- `used_names`: every `ast.Name` id seen during the walk. -/
def pyUsedNames (body : List PyNode) : List String :=
  (walkBFS body).filterMap fun n =>
    match n with
    | .name i _ => some i
    | _ => none

/-- `all_referenced_names`: callee names of `ast.Call` nodes whose `func`
is a `Name`, plus every `Name` in `Load` context. -/
def pyReferenced (body : List PyNode) : List String :=
  (walkBFS body).filterMap fun n =>
    match n with
    | .call f _ =>
      match f with
      | .name i _ => some i
      | _ => none
    | .name i ld => if ld then some i else none
    | _ => none

/-- `defined_functions`: the set of names of top-level `FunctionDef`
nodes (`tree.body` only).  Python builds a `set`; dedup models that. -/
def pyTopFuncs (body : List PyNode) : List String :=
  (body.filterMap fnName).dedup

def pyUnusedImports (body : List PyNode) : List String :=
  (pyImports body).filter fun nm => !((pyUsedNames body).contains nm)

def pyUnusedFunctions (body : List PyNode) : List String :=
  (pyTopFuncs body).filter fun f =>
    !((pyReferenced body).contains f) && !((pyClasses body).contains f)

def pyPotentialIssues (content : String) : List String :=
  (if strContains content "print(" then ["Debug print statements found"] else []) ++
  (if strContains content "TODO" || strContains content "FIXME" then
    ["TODO/FIXME comments found"] else []) ++
  (if strContains content "except:" then
    ["Bare except clauses found (use specific exceptions)"] else [])

def pySuggestions (body : List PyNode) (content : String) : List String :=
  (if (pyFunctions body).length > 50 then
    ["Consider splitting this file - it has many functions"] else []) ++
  (if (pySplit content "\n").any (fun l => l.length > 100) then
    ["Some lines are too long (>100 characters)"] else [])

/-- The result dictionary of `analyze_python_file`.  A key absent from the
Python dict is modelled by its default (empty list / `none`), per the
spec: when `error` is present all other fields are empty/default. -/
structure PyAnalysis where
  imports : List String := []
  functions : List String := []
  classes : List String := []
  /-- the dict key `variables` (`variables` is reserved in Lean) -/
  vars : List String := []
  unused_imports : List String := []
  unused_functions : List String := []
  unused_variables : List String := []
  potential_issues : List String := []
  suggestions : List String := []
  error : Option String := none
deriving DecidableEq

/-- Outcome of `ast.parse(content)`: a module body, or the exception
message `str(e)`. -/
inductive PyParseResult where
  | ok (body : List PyNode)
  | err (msg : String)

/-- `CodeAnalyzer.analyze_python_file`.  The function is total: the
source wraps everything in `try/except Exception` and degrades any parse
failure into the `error` dictionary, so no exception reaches the caller. -/
def analyze_python_file (parsed : PyParseResult) (content : String) : PyAnalysis :=
  match parsed with
  | .err m =>
    { error := some m
      potential_issues := ["Parsing error: " ++ m] }
  | .ok body =>
    { imports := pyImports body
      functions := pyFunctions body
      classes := pyClasses body
      vars := []
      unused_imports := pyUnusedImports body
      unused_functions := pyUnusedFunctions body
      unused_variables := []
      potential_issues := pyPotentialIssues content
      suggestions := pySuggestions body content
      error := none }

/-- The key set of the returned dictionary, as written in the two
`return` statements of the source: the nine collection keys on success,
`error` plus `potential_issues` on parse failure. -/
def pyFindingKeys (a : PyAnalysis) : List String :=
  match a.error with
  | some _ => ["error", "potential_issues"]
  | none =>
    ["imports", "functions", "classes", "variables", "unused_imports",
     "unused_functions", "unused_variables", "potential_issues", "suggestions"]

/-!
## Java analyzer (`CodeAnalyzer.analyze_java_file`)

Line-oriented heuristics.  The two per-line regexes and the two
whole-text regexes are hand-compiled below; each function carries the
original pattern.  `re.search` semantics (leftmost match, greedy
quantifiers with the backtracking the specific pattern needs) are
reproduced by the scanners.
-/

def dropWsStar (s : List Char) : List Char := s.dropWhile pyIsSpace

/-- `\s+`: at least one whitespace character, maximally munched. -/
def dropWs1 (s : List Char) : Option (List Char) :=
  match s with
  | c :: t => if pyIsSpace c then some (t.dropWhile pyIsSpace) else none
  | [] => none

/-- A nonempty run of characters satisfying `p`, maximally munched. -/
def takeRun1 (p : Char → Bool) (s : List Char) : Option (List Char × List Char) :=
  let run := s.takeWhile p
  if run.isEmpty then none else some (run, s.dropWhile p)

def dropCharOpt (c : Char) : List Char → Option (List Char)
  | d :: t => if d == c then some t else none
  | [] => none

/-- `re.search` driver: try the position matcher at every position, left
to right, including the end-of-string position. -/
def searchPos {α : Type} (f : List Char → Option α) : List Char → Option α
  | [] => f []
  | s@(_ :: t) => (f s) <|> searchPos f t

/-- Wordness of an optional character; the virtual character beyond
either end of the string counts as non-word for `\b`. -/
def wordB : Option Char → Bool
  | none => false
  | some c => isWordChar c

/-- Match `\b` + the escaped literal `lit` + `\b` at the current
position, `prev` being the character just before it. -/
def reWordHere (lit : List Char) (prev : Option Char) (s : List Char) : Bool :=
  match dropLitOpt lit s with
  | none => false
  | some rest =>
    (wordB prev != wordB (lit.head? <|> s.head?)) &&
    (wordB (lit.getLast? <|> prev) != wordB rest.head?)

def reWordSearchAux (lit : List Char) (prev : Option Char) (s : List Char) : Bool :=
  reWordHere lit prev s ||
    match s with
    | [] => false
    | c :: t => reWordSearchAux lit (some c) t

/-- `re.search(r'\b' + re.escape(lit) + r'\b', content)` as a Boolean. -/
def reWordSearch (lit content : String) : Bool :=
  reWordSearchAux lit.data none content.data

/-- The alternation `(public|private|protected)`; the three literals are
mutually non-prefix, so at most one can match at a position. -/
def kwAccess (s : List Char) : Option (List Char) :=
  (dropLitOpt "public".data s) <|> (dropLitOpt "private".data s) <|>
    (dropLitOpt "protected".data s)

/-- Tail of the class regex after the optional `static`:
`(class|interface)\s+(\w+)`, returning group 4. -/
def javaClassTail (st : List Char) : Option String := do
  let s3 ← (dropLitOpt "class".data st) <|> (dropLitOpt "interface".data st)
  let s4 ← dropWs1 s3
  let (nm, _) ← takeRun1 isWordChar s4
  return String.mk nm

/-- regex `(public|private|protected)\s+(static\s+)?(class|interface)\s+(\w+)`
tried at one position.  The optional group is tried with `static` first
and, if the remainder then fails, without it, as a backtracking engine
does. -/
def javaClassAt (s : List Char) : Option String := do
  let s1 ← kwAccess s
  let s2 ← dropWs1 s1
  (do
    let t1 ← dropLitOpt "static".data s2
    let t2 ← dropWs1 t1
    javaClassTail t2) <|> javaClassTail s2

/-- Tail of the method regex after the optional `static`:
`[\w<>]+\s+(\w+)\s*\([^)]*\)\s*\x7b`, returning group 3.  Every greedy
piece here is followed by a disjoint character, so maximal munch is
exact. -/
def javaMethodTail (st : List Char) : Option String := do
  let (_, s4p) ← takeRun1 (fun c => isWordChar c || c == '<' || c == '>') st
  let s4 ← dropWs1 s4p
  let (nm, s5) ← takeRun1 isWordChar s4
  let s6 ← dropCharOpt '(' (dropWsStar s5)
  let s7 := s6.dropWhile (fun c => c != ')')
  let s8 ← dropCharOpt ')' s7
  let _ ← dropCharOpt '{' (dropWsStar s8)
  return String.mk nm

/-- regex `(public|private|protected)\s+(static\s+)?[\w<>]+\s+(\w+)\s*\([^)]*\)\s*\x7b`
tried at one position. -/
def javaMethodAt (s : List Char) : Option String := do
  let s1 ← kwAccess s
  let s2 ← dropWs1 s1
  (do
    let t1 ← dropLitOpt "static".data s2
    let t2 ← dropWs1 t1
    javaMethodTail t2) <|> javaMethodTail s2

/-- First class/interface declaration found in a line (`re.search`). -/
def javaClassMatch (line : String) : Option String := searchPos javaClassAt line.data

/-- First method declaration found in a line (`re.search`). -/
def javaMethodMatch (line : String) : Option String := searchPos javaMethodAt line.data

/-- regex `public\s+static\s+void\s+main\s*\(String\[\]\s+args\)` at one
position. -/
def javaMainAt (s : List Char) : Option Unit := do
  let s1 ← dropLitOpt "public".data s
  let s2 ← dropWs1 s1
  let s3 ← dropLitOpt "static".data s2
  let s4 ← dropWs1 s3
  let s5 ← dropLitOpt "void".data s4
  let s6 ← dropWs1 s5
  let s7 ← dropLitOpt "main".data s6
  let s8 ← dropCharOpt '(' (dropWsStar s7)
  let s9 ← dropLitOpt "String[]".data s8
  let s10 ← dropWs1 s9
  let _ ← dropLitOpt "args)".data s10
  return ()

def javaMainSearch (content : String) : Bool :=
  (searchPos javaMainAt content.data).isSome

def javaLines (content : String) : List String := pySplit content "\n"

/-- Import extraction: lines whose stripped form starts with `import `,
with `import ` and every `;` removed. -/
def javaImports (lines : List String) : List String :=
  lines.filterMap fun line =>
    let st := pyStrip line
    if strStartsWith st "import " then some (removeAll (removeAll st "import ") ";")
    else none

def javaClassesOf (lines : List String) : List String :=
  lines.filterMap javaClassMatch

def javaMethodsOf (lines : List String) : List String :=
  lines.filterMap javaMethodMatch

/-- `line.split('\x7b')[0]`: the part of a line before its first opening
brace (the whole line when it has none). -/
def javaLinePrefix (line : String) : String :=
  (pySplit line "\x7b").headD ""

/-- The source's per-method reference heuristic: some line contains
`" name("` outside of the part before the line's first opening brace. -/
def javaMethodReferenced (m : String) (lines : List String) : Bool :=
  lines.any fun line =>
    strContains line m && strContains line (" " ++ m ++ "(") &&
      !(strContains (javaLinePrefix line) (" " ++ m ++ "("))

/-- `unused_methods`: the defined-method set (Python `set`, modelled by
dedup) filtered by the reference heuristic. -/
def javaUnusedMethods (lines : List String) : List String :=
  ((javaMethodsOf lines).dedup).filter fun m => !(javaMethodReferenced m lines)

/-- `imp.split('.')[-1]`. -/
def javaLastSegment (imp : String) : String :=
  (pySplit imp ".").getLastD ""

def javaUsedImportsCount (imports : List String) (content : String) : Nat :=
  (imports.filter fun imp => reWordSearch (javaLastSegment imp) content).length

/-- The single generic advisory emitted when fewer imports were confirmed
used than were declared. -/
def javaUnusedImports (imports : List String) (content : String) : List String :=
  if javaUsedImportsCount imports content < imports.length then
    ["Some imports might be unused (manual verification recommended)"]
  else []

def javaIssues (content : String) : List String :=
  (if strContains content "System.out.println" then
    ["System.out.println statements found (use logging framework like SLF4J)"] else []) ++
  (if strContains content "catch (Exception e)" || strContains content "catch (Throwable t)" then
    ["Catching generic Exception/Throwable (use specific exceptions for better error handling)"]
   else []) ++
  (if strContains content "// TODO" || strContains content "// FIXME" then
    ["TODO/FIXME comments found"] else []) ++
  (if strContains content "new File(" && !(strContains content "try \x7b") then
    ["File operations without try-with-resources or explicit close (resource leak risk)"]
   else [])

def javaSuggestions (content : String) (lines classes methods : List String) : List String :=
  (if javaMainSearch content && classes.length > 1 then
    ["Consider refactoring main method into a dedicated entry point class if project grows"]
   else []) ++
  (if methods.length > 20 then
    ["Consider refactoring this class - it has many methods (High Cohesion, Low Coupling principle)"]
   else []) ++
  (if !(lines.any fun l => strContains l "private" || strContains l "protected") then
    ["Consider using private/protected access modifiers for better encapsulation"]
   else []) ++
  (if strContains content "java.util.Date" then
    ["Consider using java.time (JSR 310) for modern date/time API instead of java.util.Date"]
   else [])

structure JavaAnalysis where
  potential_issues : List String
  suggestions : List String
  imports : List String
  classes : List String
  methods : List String
  unused_imports : List String
  unused_methods : List String
deriving DecidableEq

/-- `CodeAnalyzer.analyze_java_file`. -/
def analyze_java_file (content : String) : JavaAnalysis :=
  let lines := javaLines content
  let imports := javaImports lines
  { potential_issues := javaIssues content
    suggestions := javaSuggestions content lines (javaClassesOf lines) (javaMethodsOf lines)
    imports := imports
    classes := javaClassesOf lines
    methods := javaMethodsOf lines
    unused_imports := javaUnusedImports imports content
    unused_methods := javaUnusedMethods lines }

/-!
## JavaScript/TypeScript analyzer (`CodeAnalyzer.analyze_javascript_file`)

`re.finditer` passes are modelled by `scanIter`: a scan that, at each
position, either emits the match and resumes at the match end, or skips
one character.  Every pattern below starts with a nonempty literal, so a
successful match always consumes at least one character and the fuel
`length + 1` is never exhausted before the scan completes.
-/

theorem dropWhile_len_le (p : Char → Bool) (l : List Char) :
    (l.dropWhile p).length ≤ l.length := by
  induction l with
  | nil => simp
  | cons c t ih =>
    by_cases h : p c
    · simp [List.dropWhile, h]
      omega
    · simp [List.dropWhile, h]

def scanIter {α : Type} (step : List Char → Option (α × List Char)) :
    Nat → List Char → List α
  | 0, _ => []
  | fuel + 1, s =>
    match step s with
    | some (a, rest) => a :: scanIter step fuel rest
    | none =>
      match s with
      | [] => []
      | _ :: t => scanIter step fuel t

/-- `re.finditer`, collecting the captured group of each match. -/
def finditer {α : Type} (step : List Char → Option (α × List Char))
    (s : List Char) : List α :=
  scanIter step (s.length + 1) s

/-- regex `function\s+(\w+)\s*\(` at one position; yields group 1 and the
match end. -/
def matchFuncDecl (s : List Char) : Option (String × List Char) := do
  let s1 ← dropLitOpt "function".data s
  let s2 ← dropWs1 s1
  let (nm, s3) ← takeRun1 isWordChar s2
  let s4 ← dropCharOpt '(' (dropWsStar s3)
  return (String.mk nm, s4)

/-- The alternation `(?:const|let|var)`; mutually non-prefix literals. -/
def kwCLV (s : List Char) : Option (List Char) :=
  (dropLitOpt "const".data s) <|> (dropLitOpt "let".data s) <|>
    (dropLitOpt "var".data s)

/-- The lazy piece `.*?\)\s*=>`: expand the dot minimally (never across a
newline), at each stop trying `\)\s*=>`. -/
def lazyCloseArrow : List Char → Option (List Char)
  | [] => none
  | c :: cs =>
    (if c == ')' then dropLitOpt "=>".data (dropWsStar cs) else none) <|>
      (if c == '\n' then none else lazyCloseArrow cs)

/-- regex `(?:const|let|var)\s+(\w+)\s*=\s*(?:function|\(.*?\)\s*=>)` at
one position; the alternation tries `function` first, as `re` does. -/
def matchArrowDecl (s : List Char) : Option (String × List Char) := do
  let s1 ← kwCLV s
  let s2 ← dropWs1 s1
  let (nm, s3) ← takeRun1 isWordChar s2
  let s4 ← dropCharOpt '=' (dropWsStar s3)
  let s5 := dropWsStar s4
  match dropLitOpt "function".data s5 with
  | some r => return (String.mk nm, r)
  | none => do
    let s6 ← dropCharOpt '(' s5
    let r ← lazyCloseArrow s6
    return (String.mk nm, r)

/-- The lazy piece `.*?\)\s*\x7b` of the class-method pattern. -/
def lazyCloseBrace : List Char → Option (List Char)
  | [] => none
  | c :: cs =>
    (if c == ')' then dropCharOpt '{' (dropWsStar cs) else none) <|>
      (if c == '\n' then none else lazyCloseBrace cs)

/-- The lazy piece `[^}]*?(\w+)\s*\(.*?\)\s*\x7b`: expand `[^}]*?`
minimally (one character at a time, any character except a closing
brace), at each stop trying the method shape.  When the shape fails the
scan advances a single character, which reproduces the backtracking of
the lazy quantifier. -/
def classInner : List Char → Option (String × List Char)
  | [] => none
  | c :: cs =>
    (do
      let (nm, s1) ← takeRun1 isWordChar (c :: cs)
      let s2 ← dropCharOpt '(' (dropWsStar s1)
      let r ← lazyCloseBrace s2
      return (String.mk nm, r)) <|>
    (if c == '}' then none else classInner cs)

/-- regex `class\s+\w+\s*\x7b[^}]*?(\w+)\s*\(.*?\)\s*\x7b` at one
position. -/
def matchClassMethod (s : List Char) : Option (String × List Char) := do
  let s1 ← dropLitOpt "class".data s
  let s2 ← dropWs1 s1
  let (_, s3) ← takeRun1 isWordChar s2
  let s4 ← dropCharOpt '{' (dropWsStar s3)
  classInner s4

/-- The lazy piece `.*?;`: the first semicolon reachable without
crossing a newline. -/
def lazySemi : List Char → Option (List Char)
  | [] => none
  | c :: t => if c == ';' then some t else if c == '\n' then none else lazySemi t

/-- The tail `\s*=?.*?;` of the variable pattern.  Consuming an `=` when
present is exact: skipping it would only make the dot consume the same
character, reaching the same semicolon. -/
def var1Tail (s : List Char) : Option (List Char) :=
  let s1 := dropWsStar s
  let s2 :=
    match s1 with
    | '=' :: t => t
    | _ => s1
  lazySemi s2

/-- Try lengths `n, n-1, ..., 1` in order: the backtracking order of a
greedy quantifier. -/
def tryDescOpt {α : Type} : Nat → (Nat → Option α) → Option α
  | 0, _ => none
  | n + 1, f => f (n + 1) <|> tryDescOpt n f

/-- The class `[\w,\s]`. -/
def isVarClassChar (c : Char) : Bool :=
  isWordChar c || c == ',' || pyIsSpace c

/-- regex `(?:const|let|var)\s+([\w,\s]+)\s*=?.*?;` after the keyword:
both `\s+` and the captured class are greedy over overlapping alphabets,
so both backtrack, longest first. -/
def var1Try (s1 : List Char) : Option (String × List Char) :=
  tryDescOpt (s1.takeWhile pyIsSpace).length fun i =>
    let s2 := s1.drop i
    tryDescOpt (s2.takeWhile isVarClassChar).length fun j =>
      (var1Tail (s2.drop j)).map fun rest => (String.mk (s2.take j), rest)

def matchVar1 (s : List Char) : Option (String × List Char) :=
  (kwCLV s).bind var1Try

/-- regex `this\.(\w+)\s*=` at one position. -/
def matchThisProp (s : List Char) : Option (String × List Char) := do
  let s1 ← dropLitOpt "this.".data s
  let (nm, s2) ← takeRun1 isWordChar s1
  let s3 ← dropCharOpt '=' (dropWsStar s2)
  return (String.mk nm, s3)

/-- Accumulator pass splitting a text into its maximal word-character
runs (`cur` holds the current run, reversed). -/
def wordRunsAux : List Char → List Char → List String
  | cur, [] => if cur.isEmpty then [] else [String.mk cur.reverse]
  | cur, c :: t =>
    if isWordChar c then wordRunsAux (c :: cur) t
    else if cur.isEmpty then wordRunsAux [] t
    else String.mk cur.reverse :: wordRunsAux [] t

/-- `re.findall(r'(\w+)', g)`: every maximal word-character run. -/
def wordRuns (s : List Char) : List String :=
  wordRunsAux [] s

def headAlphaUnderscore (r : String) : Bool :=
  match r.data with
  | c :: _ => c.isAlpha || c == '_'
  | [] => false

/-- `re.findall(r'\b[a-zA-Z_][a-zA-Z0-9_]*\b', content)`: maximal word
runs whose first character is a letter or underscore.  A maximal run
starting with a digit yields nothing: inside the run there is no word
boundary for the leading `\b`. -/
def wordTokens (s : List Char) : List String :=
  (wordRuns s).filter headAlphaUnderscore

/-- Match `\b` + the name + `\s*\(` at the current position. -/
def nameParenHere (nm : List Char) (prev : Option Char) (s : List Char) : Bool :=
  match dropLitOpt nm s with
  | none => false
  | some rest =>
    (wordB prev != wordB (nm.head? <|> s.head?)) &&
      (match dropWsStar rest with
       | '(' :: _ => true
       | _ => false)

def nameParenAux (nm : List Char) (prev : Option Char) (s : List Char) : Bool :=
  nameParenHere nm prev s ||
    match s with
    | [] => false
    | c :: t => nameParenAux nm (some c) t

/-- `re.search(fr'\b\x7bname\x7d\s*\(', content)` as a Boolean. -/
def nameParenSearch (nm content : String) : Bool :=
  nameParenAux nm.data none content.data

/-- regex `==(?!=)`: two equals signs not followed by a third. -/
def hasLooseEq : List Char → Bool
  | '=' :: '=' :: [] => true
  | '=' :: '=' :: c :: rest => if c == '=' then hasLooseEq ('=' :: c :: rest) else true
  | _ :: rest => hasLooseEq rest
  | [] => false
termination_by s => s.length

def leadingNonSpace (s : List Char) : Nat :=
  (s.takeWhile fun c => !pyIsSpace c).length

/-- Boolean form of `tryDescOpt`. -/
def tryDescB : Nat → (Nat → Bool) → Bool
  | 0, _ => false
  | n + 1, f => f (n + 1) || tryDescB n f

/-- The tail `\S+\(\)` with the greedy run backtracked longest-first. -/
def diParens (s : List Char) : Bool :=
  tryDescB (leadingNonSpace s) fun j =>
    match s.drop j with
    | '(' :: ')' :: _ => true
    | _ => false

/-- The tail `\S+\s*=\s*new\s+\S+\(\)`. -/
def diAssign (s : List Char) : Bool :=
  tryDescB (leadingNonSpace s) fun j =>
    match dropWsStar (s.drop j) with
    | '=' :: s2 =>
      (match dropLitOpt "new".data (dropWsStar s2) with
       | some s4 =>
         (match s4 with
          | c :: _ => pyIsSpace c && diParens (dropWsStar s4)
          | [] => false)
       | none => false)
    | _ => false

/-- The tail `\s+\S+\s*=\s*new\s+\S+\(\)` after the matched colon. -/
def diAfterColon (s : List Char) : Bool :=
  match s with
  | c :: _ => pyIsSpace c && diAssign (dropWsStar s)
  | [] => false

/-- The lazy piece `.*?:` followed by the assignment tail. -/
def diScanColon : List Char → Bool
  | [] => false
  | c :: t => (c == ':' && diAfterColon t) || (c != '\n' && diScanColon t)

/-- regex `(?:private|public)\s+.*?:\s+\S+\s*=\s*new\s+\S+\(\)` at one
position. -/
def diAt (s : List Char) : Option Unit := do
  let s1 ← (dropLitOpt "private".data s) <|> (dropLitOpt "public".data s)
  let s2 ← dropWs1 s1
  if diScanColon s2 then return () else none

def searchDI (content : String) : Bool :=
  (searchPos diAt content.data).isSome

/-- regex `subscribe\s*\(` at one position. -/
def subscribeAt (s : List Char) : Option Unit := do
  let s1 ← dropLitOpt "subscribe".data s
  let _ ← dropCharOpt '(' (dropWsStar s1)
  return ()

def subscribeSearch (content : String) : Bool :=
  (searchPos subscribeAt content.data).isSome

/-- `analysis['functions']`: the three function patterns, in source
order (named functions, assigned function/arrow expressions, class
methods). -/
def jsFunctions (content : String) : List String :=
  finditer matchFuncDecl content.data ++ finditer matchArrowDecl content.data ++
    finditer matchClassMethod content.data

/-- `analysis['variables']`: declaration matches expanded by
`re.findall(r'(\w+)', group)`, then `this.`-property matches. -/
def jsVariables (content : String) : List String :=
  ((finditer matchVar1 content.data).map fun g => wordRuns g.data).flatten ++
    finditer matchThisProp content.data

/-- `used_names`: the broad identifier tokenizer over the whole text. -/
def jsUsedNames (content : String) : List String :=
  wordTokens content.data

def jsUnusedFunctions (content : String) : List String :=
  (jsFunctions content).filter fun n =>
    !((jsUsedNames content).contains n) && !(nameParenSearch n content)

def jsUnusedVariables (content : String) : List String :=
  (jsVariables content).filter fun n =>
    !((jsUsedNames content).contains n) && !((jsFunctions content).contains n)

def jsIssues (content : String) : List String :=
  (if strContains content "console.log" || strContains content "console.error" ||
      strContains content "console.warn" then
    ["Console.log/error/warn statements found (consider removing or using a proper logging library in production)"]
   else []) ++
  (if strContains content "eval(" then
    ["`eval()` usage found (potential security risk and performance implications)"]
   else []) ++
  (if searchDI content then
    ["Direct instantiation of services/dependencies in components (consider Dependency Injection framework like Angular\x27s or decorators for others)"]
   else []) ++
  (if subscribeSearch content && !(strContains content "unsubscribe") then
    ["Observable subscriptions without explicit unsubscription (potential memory leak in Angular/RxJS contexts)"]
   else [])

/-- The TypeScript-only looseness advisory. -/
def anySuggestion : String :=
  "Extensive use of \x27any\x27 type in TypeScript (consider more specific types for better type safety)"

def jsSuggestions (content language : String) (functions : List String) : List String :=
  (if strContains content "var " then
    ["Consider using \x27let\x27 or \x27const\x27 instead of \x27var\x27 for better block scoping"]
   else []) ++
  (if hasLooseEq content.data then
    ["Consider using strict equality (===) instead of (==) to avoid type coercion issues"]
   else []) ++
  (if strContains content "any" && language == "typescript" then [anySuggestion] else []) ++
  (if functions.length > 30 then
    ["Consider refactoring this file - it has too many functions (violates Single Responsibility Principle)"]
   else []) ++
  (if strContains content "jQuery" || strContains content "$(" then
    ["Consider using modern JavaScript APIs or lighter alternatives instead of jQuery for new development"]
   else [])

structure JsAnalysis where
  potential_issues : List String
  suggestions : List String
  functions : List String
  /-- the dict key `variables` (`variables` is reserved in Lean) -/
  vars : List String
  unused_functions : List String
  unused_variables : List String
deriving DecidableEq

/-- `CodeAnalyzer.analyze_javascript_file(content, language)`. -/
def analyze_javascript_file (content : String) (language : String) : JsAnalysis :=
  { potential_issues := jsIssues content
    suggestions := jsSuggestions content language (jsFunctions content)
    functions := jsFunctions content
    vars := jsVariables content
    unused_functions := jsUnusedFunctions content
    unused_variables := jsUnusedVariables content }

/-- A call that omits the `language` argument picks up the declared
default `'javascript'`. -/
def analyze_javascript_file_default (content : String) : JsAnalysis :=
  analyze_javascript_file content "javascript"

/-!
## Framework detection and structure audit (`ProjectStructureAnalyzer`)
-/

/-- A repository content entry as the GitHub client yields it: a path
and a type string (`"file"` or `"dir"`). -/
structure ContentItem where
  path : String
  ctype : String
deriving DecidableEq

/-- `all_paths`: lowercased paths, directories suffixed with `/`.  The
source builds a Python `set`; only membership and existential matching
are ever used, so a list models it. -/
def allPaths (contents : List ContentItem) : List String :=
  contents.map fun c =>
    if c.ctype == "file" then strLower c.path else strLower c.path ++ "/"

/-- `os.path.basename`: the part after the last `/`. -/
def pyBasename (p : String) : String :=
  (pySplit p "/").getLastD ""

/-- Pattern normalization: lowercase; a pattern that neither ends in `/`
nor has a dot in its basename is treated as a directory name and gets a
trailing `/`. -/
def normalizePattern (pat : String) : String :=
  let np := strLower pat
  if !(strEndsWith np "/") && !(strContains (pyBasename np) ".") then np ++ "/" else np

/-- How many of the framework patterns match (appear as a substring of)
some path of the set. -/
def patternMatchCount (pats : List String) (paths : List String) : Nat :=
  pats.countP fun pat => paths.any fun p => strContains p (normalizePattern pat)

/-- `self.framework_patterns`, in declaration order. -/
def framework_patterns : List (String × List String) :=
  [("React", ["package.json", "src/App.js", "src/index.js", "public/index.html"]),
   ("Vue", ["package.json", "src/main.js", "src/App.vue"]),
   ("Angular", ["angular.json", "src/main.ts", "src/app/app.module.ts",
                "src/index.html", "src/app/"]),
   ("Django", ["manage.py", "settings.py", "urls.py", "wsgi.py"]),
   ("Flask", ["app.py", "requirements.txt", "templates/"]),
   ("Spring Boot", ["pom.xml", "src/main/java/", "application.properties"]),
   ("Express.js", ["package.json", "app.js", "server.js"]),
   ("Next.js", ["next.config.js", "pages/", "package.json"]),
   ("Laravel", ["composer.json", "artisan", "app/Http/Controllers/"]),
   ("Rails", ["Gemfile", "config/routes.rb", "app/controllers/"]),
   ("FastAPI", ["main.py", "requirements.txt", "app/"]),
   ("Nest.js", ["nest-cli.json", "src/main.ts", "src/app.module.ts"])]

/-- The detection loop over the pattern table: first framework with at
least 2 matching patterns wins, except that `Angular` is skipped (and
the loop continues) when `angular.json` is not itself in the path set. -/
def detectAux : List (String × List String) → List String → Option String
  | [], _ => none
  | (fw, pats) :: rest, paths =>
    if 2 ≤ patternMatchCount pats paths then
      if fw == "Angular" && !(paths.contains "angular.json") then detectAux rest paths
      else some fw
    else detectAux rest paths

/-- `ProjectStructureAnalyzer.detect_framework`. -/
def detect_framework (contents : List ContentItem) : Option String :=
  detectAux framework_patterns (allPaths contents)

/-- `self.structure_recommendations`: framework to (recommended paths,
description). -/
def structure_recommendations : List (String × (List String × String)) :=
  [("React", (["src/components/", "src/hooks/", "src/utils/", "src/services/",
               "src/assets/"],
      "Component-based architecture with hooks and services")),
   ("Django", (["apps/", "static/", "templates/", "media/", "requirements.txt"],
      "Django apps structure with proper separation of concerns")),
   ("Spring Boot", (["src/main/java/com/company/app/", "src/main/resources/",
                     "src/test/"],
      "Maven/Gradle structure with proper package organization")),
   ("Express.js", (["routes/", "middleware/", "models/", "controllers/", "config/"],
      "MVC pattern with proper middleware and routing")),
   ("Angular", (["src/app/components/", "src/app/services/", "src/app/models/",
                 "src/app/shared/", "src/environments/"],
      "Modular Angular application structure with services, components, and shared modules"))]

structure StructureReport where
  framework : Option String
  files : List String
  directories : List String
  issues : List String
  recommendations : List String
deriving DecidableEq

/-- `ProjectStructureAnalyzer.analyze_structure(repo_contents, framework)`.
(`framework=None` is the declared default; the falsy empty string hits
the same skip because it is not a key of the recommendation table.) -/
def analyze_structure (contents : List ContentItem) (framework : Option String) :
    StructureReport :=
  let files := (contents.filter fun c => c.ctype == "file").map ContentItem.path
  let directories := (contents.filter fun c => !(c.ctype == "file")).map ContentItem.path
  let all_file_paths := files.map strLower
  let all_dir_paths := directories.map strLower
  let issues :=
    (if !(all_file_paths.contains "readme.md") then ["Missing README.md file"] else []) ++
    (if !(all_file_paths.contains ".gitignore") then ["Missing .gitignore file"] else [])
  let recommendations :=
    match framework with
    | none => []
    | some f =>
      match structure_recommendations.lookup f with
      | none => []
      | some (recs, _) =>
        recs.filterMap fun rp =>
          if !((all_file_paths ++ all_dir_paths).any fun p =>
              strContains p (strLower rp)) then
            some ("Consider adding " ++ rp ++ " for " ++ f ++ " best practices.")
          else none
  { framework := framework
    files := files
    directories := directories
    issues := issues
    recommendations := recommendations }

/-!
## Orchestration-level flows (`src/cogs/analysis_cog.py`, `general_cog.py`)
-/

/-- The structure-report flow of `AnalysisCog.analyze_repo` (lines
63-69): `analyze_structure` is called with the framework argument
omitted (`None`), the framework is detected afterwards, and a truthy
detection only overwrites the report's `framework` field. -/
def analyzeRepoStructure (contents : List ContentItem) : StructureReport :=
  let structure0 := analyze_structure contents none
  match detect_framework contents with
  | some fw => { structure0 with framework := some fw }
  | none => structure0

/-- `self.code_analyzer.supported_extensions`. -/
def supported_extensions : List (String × String) :=
  [(".py", "python"), (".js", "javascript"), (".ts", "typescript"),
   (".jsx", "javascript"), (".tsx", "typescript"), (".java", "java"),
   (".cpp", "cpp"), (".c", "c"), (".cs", "csharp"), (".go", "go"),
   (".rs", "rust"), (".php", "php"), (".rb", "ruby"), (".swift", "swift"),
   (".kt", "kotlin"), (".scala", "scala"), (".html", "html"), (".css", "css"),
   (".scss", "scss"), (".sql", "sql")]

/-- The JS/TS dispatch branch shared by `AnalysisCog.analyze_repo`
(lines 95-96) and `AnalysisCog.upload` (lines 455-456): for any of the
four extensions the file goes to `analyze_javascript_file` with the
`language` argument omitted. -/
def cogJsBranch (ext content : String) : Option JsAnalysis :=
  if ext == ".js" || ext == ".ts" || ext == ".jsx" || ext == ".tsx" then
    some (analyze_javascript_file_default content)
  else none

/-- `range(start, stop, step)` for a positive step. -/
def pyRange (start stop step : Nat) : List Nat :=
  if h : start < stop ∧ 0 < step then start :: pyRange (start + step) stop step
  else []
termination_by stop - start
decreasing_by omega

/-- The response chunking of `AnalysisCog.ai_review` and
`GeneralCog.chat_with_ai`:
`[response[i:i+2000] for i in range(0, len(response), 2000)]`, on the
code-point sequence of the response. -/
def responseChunks (s : List Char) : List (List Char) :=
  (pyRange 0 s.length 2000).map fun i => (s.drop i).take 2000

/-!
## Helper lemmas
-/

theorem subB_of_filter (p : String → Bool) (l : List String) :
    listSubsetB (l.filter p) l = true := by
  rw [listSubsetB_iff]
  intro x hx
  exact List.mem_of_mem_filter hx

theorem pyTopFuncs_sub (body : List PyNode) :
    ∀ x ∈ pyTopFuncs body, x ∈ pyFunctions body := by
  intro x hx
  rw [pyTopFuncs, List.mem_dedup] at hx
  obtain ⟨n, hn, he⟩ := List.mem_filterMap.mp hx
  exact List.mem_filterMap.mpr ⟨n, mem_walkBFS body n hn, he⟩

theorem mem_ite_singleton {a b : String} {c : Prop} [Decidable c]
    (h : a ∈ (if c then [b] else ([] : List String))) : a = b := by
  split at h
  · simpa using h
  · simp at h

/-- The qualification test of one table entry, as a Boolean: at least two
patterns match, and an entry named `Angular` additionally has
`angular.json` in the path set. -/
def qualifiesB (fw : String) (pats paths : List String) : Bool :=
  decide (2 ≤ patternMatchCount pats paths) &&
    (fw != "Angular" || paths.contains "angular.json")

theorem detectAux_skip (fw : String) (pats : List String)
    (rest : List (String × List String)) (paths : List String)
    (h : qualifiesB fw pats paths = false) :
    detectAux ((fw, pats) :: rest) paths = detectAux rest paths := by
  by_cases h2 : 2 ≤ patternMatchCount pats paths
  · have h3 : (fw == "Angular" && !(paths.contains "angular.json")) = true := by
      simp only [qualifiesB, h2, decide_True, Bool.true_and] at h
      cases hb : (fw == "Angular") <;> cases hc : paths.contains "angular.json" <;>
        simp_all [bne]
    simp only [detectAux]
    rw [if_pos h2, if_pos h3]
  · simp only [detectAux]
    rw [if_neg h2]

theorem detectAux_hit (fw : String) (pats : List String)
    (rest : List (String × List String)) (paths : List String)
    (h : qualifiesB fw pats paths = true) :
    detectAux ((fw, pats) :: rest) paths = some fw := by
  have h2 : 2 ≤ patternMatchCount pats paths := by
    simp only [qualifiesB, Bool.and_eq_true, decide_eq_true_eq] at h
    exact h.1
  have h3 : (fw == "Angular" && !(paths.contains "angular.json")) = false := by
    simp only [qualifiesB, h2, decide_True, Bool.true_and] at h
    cases hb : (fw == "Angular") <;> cases hc : paths.contains "angular.json" <;>
      simp_all [bne]
  simp only [detectAux]
  rw [if_pos h2, if_neg (by rw [h3]; exact Bool.false_ne_true)]

theorem detectAux_first (paths : List String) (fw : String) (pats : List String)
    (post : List (String × List String)) :
    ∀ pre : List (String × List String),
      (∀ e ∈ pre, qualifiesB e.1 e.2 paths = false) →
      qualifiesB fw pats paths = true →
      detectAux (pre ++ (fw, pats) :: post) paths = some fw := by
  intro pre
  induction pre with
  | nil =>
    intro _ hq
    simpa using detectAux_hit fw pats post paths hq
  | cons e t ih =>
    intro hpre hq
    obtain ⟨efw, epats⟩ := e
    rw [List.cons_append,
      detectAux_skip efw epats (t ++ (fw, pats) :: post) paths
        (hpre ⟨efw, epats⟩ (List.mem_cons_self _ _))]
    exact ih (fun e2 he => hpre e2 (List.mem_cons_of_mem _ he)) hq

theorem detectAux_angular (table : List (String × List String)) (paths : List String)
    (h : paths.contains "angular.json" = false) :
    detectAux table paths ≠ some "Angular" := by
  induction table with
  | nil => simp [detectAux]
  | cons e rest ih =>
    obtain ⟨fw, pats⟩ := e
    by_cases h2 : 2 ≤ patternMatchCount pats paths
    · by_cases h3 : (fw == "Angular") = true
      · have hg : (fw == "Angular" && !(paths.contains "angular.json")) = true := by
          rw [h3, h]
          rfl
        simp only [detectAux]
        rw [if_pos h2, if_pos hg]
        exact ih
      · have hg : (fw == "Angular" && !(paths.contains "angular.json")) = false := by
          simp only [Bool.not_eq_true] at h3
          simp [h3]
        simp only [detectAux]
        rw [if_pos h2, if_neg (by rw [hg]; exact Bool.false_ne_true)]
        intro hc
        exact h3 (by simp [Option.some.inj hc])
    · simp only [detectAux]
      rw [if_neg h2]
      exact ih

theorem chunksAux (k : Nat) (hk : 0 < k) (s : List Char) (i : Nat) :
    ((pyRange i s.length k).map fun j => (s.drop j).take k).flatten = s.drop i := by
  by_cases h : i < s.length
  · rw [pyRange, dif_pos ⟨h, hk⟩]
    simp only [List.map_cons, List.flatten_cons]
    rw [chunksAux k hk s (i + k)]
    rw [show s.drop (i + k) = (s.drop i).drop k from by rw [List.drop_drop, Nat.add_comm]]
    exact List.take_append_drop k (s.drop i)
  · rw [pyRange, dif_neg (fun hc => h hc.1)]
    simp [List.drop_eq_nil_of_le (Nat.le_of_not_lt h)]
termination_by s.length - i
decreasing_by omega

/-!
## Claims
-/

/-- C1 (amended): in every analyzer the `unused` collections computed by
filtering are subsets of the corresponding `defined` collections —
Python `unused_imports ⊆ imports`, `unused_functions ⊆ functions`,
`unused_variables ⊆ variables`; Java `unused_methods ⊆ methods`; JS/TS
`unused_functions ⊆ functions`, `unused_variables ⊆ variables`.  The
exception forced by the counterexample: Java `unused_imports` is not a
subset of `imports` — it holds a generic advisory sentence that is never
an import name. -/
theorem claim_C1_amended (parsed : PyParseResult) (content jcontent jscontent lang : String) :
    (listSubsetB (analyze_python_file parsed content).unused_imports
        (analyze_python_file parsed content).imports = true ∧
      listSubsetB (analyze_python_file parsed content).unused_functions
        (analyze_python_file parsed content).functions = true ∧
      listSubsetB (analyze_python_file parsed content).unused_variables
        (analyze_python_file parsed content).vars = true) ∧
    listSubsetB (analyze_java_file jcontent).unused_methods
        (analyze_java_file jcontent).methods = true ∧
    (listSubsetB (analyze_javascript_file jscontent lang).unused_functions
        (analyze_javascript_file jscontent lang).functions = true ∧
      listSubsetB (analyze_javascript_file jscontent lang).unused_variables
        (analyze_javascript_file jscontent lang).vars = true) := by
  refine ⟨⟨?_, ?_, ?_⟩, ?_, ?_, ?_⟩
  · cases parsed with
    | err m => simp [analyze_python_file, listSubsetB]
    | ok body =>
      show listSubsetB (pyUnusedImports body) (pyImports body) = true
      exact subB_of_filter _ _
  · cases parsed with
    | err m => simp [analyze_python_file, listSubsetB]
    | ok body =>
      show listSubsetB (pyUnusedFunctions body) (pyFunctions body) = true
      rw [listSubsetB_iff]
      intro x hx
      exact pyTopFuncs_sub body x (List.mem_of_mem_filter hx)
  · cases parsed with
    | err m => simp [analyze_python_file, listSubsetB]
    | ok body => simp [analyze_python_file, listSubsetB]
  · show listSubsetB (javaUnusedMethods (javaLines jcontent))
      (javaMethodsOf (javaLines jcontent)) = true
    rw [listSubsetB_iff]
    intro x hx
    exact List.mem_dedup.mp (List.mem_of_mem_filter hx)
  · show listSubsetB (jsUnusedFunctions jscontent) (jsFunctions jscontent) = true
    exact subB_of_filter _ _
  · show listSubsetB (jsUnusedVariables jscontent) (jsVariables jscontent) = true
    exact subB_of_filter _ _

/-- C1 counterexample: on the Java input `import java.util.*;` the
analyzer puts a generic advisory sentence into `unused_imports`, which
is not an element of `imports`, so `unused_imports ⊆ imports` fails for
the Java analyzer. -/
theorem claim_C1_counterexample :
    (analyze_java_file "import java.util.*;").imports = ["java.util.*"] ∧
    (analyze_java_file "import java.util.*;").unused_imports =
      ["Some imports might be unused (manual verification recommended)"] ∧
    listSubsetB (analyze_java_file "import java.util.*;").unused_imports
      (analyze_java_file "import java.util.*;").imports = false := by
  refine ⟨?_, ?_, ?_⟩ <;> decide

/-- C2 (amended): in the Java analyzer a defined method is excluded from
`unused_methods` exactly when some line contains a space, the method
name and an opening parenthesis (`" name("`) outside the part of that
line before its first opening brace.  In particular an occurrence not
preceded by a space (such as `x.foo()`) or on a brace-free line does not
count, and the definition-line test is the per-line brace-prefix test,
not line identity. -/
theorem claim_C2_amended (content nm : String)
    (h : nm ∈ (analyze_java_file content).methods) :
    (nm ∈ (analyze_java_file content).unused_methods ↔
      javaMethodReferenced nm (javaLines content) = false) := by
  have hm : nm ∈ javaMethodsOf (javaLines content) := h
  show nm ∈ javaUnusedMethods (javaLines content) ↔ _
  rw [javaUnusedMethods]
  constructor
  · intro hx
    have := (List.mem_filter.mp hx).2
    simpa using this
  · intro hr
    refine List.mem_filter.mpr ⟨List.mem_dedup.mpr hm, ?_⟩
    simp [hr]

/-- Witness for C2: instantiation on a concrete two-line class body. -/
theorem claim_C2_witness :
    "foo" ∈ (analyze_java_file "public void foo() \x7b\n    x.foo();\n\x7d").methods ∧
    ("foo" ∈ (analyze_java_file "public void foo() \x7b\n    x.foo();\n\x7d").unused_methods ↔
      javaMethodReferenced "foo"
        (javaLines "public void foo() \x7b\n    x.foo();\n\x7d") = false) :=
  ⟨by decide, claim_C2_amended "public void foo() \x7b\n    x.foo();\n\x7d" "foo" (by decide)⟩

/-- C2 counterexample: `foo` is called as `x.foo();` on line 1, a line
other than its definition line (the method regex matches no declaration
there), `foo(` does appear in that line, yet `foo` is reported in
`unused_methods` — so "used iff the name appears immediately followed by
an opening parenthesis on a line other than its own definition line" is
false on the code. -/
theorem claim_C2_counterexample :
    (analyze_java_file "public void foo() \x7b\n    x.foo();\n\x7d").methods = ["foo"] ∧
    (analyze_java_file "public void foo() \x7b\n    x.foo();\n\x7d").unused_methods = ["foo"] ∧
    strContains "    x.foo();" "foo(" = true ∧
    javaLines "public void foo() \x7b\n    x.foo();\n\x7d" =
      ["public void foo() \x7b", "    x.foo();", "\x7d"] ∧
    javaMethodMatch "    x.foo();" = none := by
  refine ⟨?_, ?_, ?_, ?_, ?_⟩ <;> decide

/-- C3: when the parse fails with message `m`, the returned finding has
the error field set to `m`, a single potential-issues entry naming the
parsing error, and every other collection field empty (the absent dict
keys, modelled by their defaults per the spec "empty/default"). -/
theorem claim_C3 (m content : String) :
    (analyze_python_file (.err m) content).error = some m ∧
    (analyze_python_file (.err m) content).potential_issues = ["Parsing error: " ++ m] ∧
    (analyze_python_file (.err m) content).imports = [] ∧
    (analyze_python_file (.err m) content).functions = [] ∧
    (analyze_python_file (.err m) content).classes = [] ∧
    (analyze_python_file (.err m) content).vars = [] ∧
    (analyze_python_file (.err m) content).unused_imports = [] ∧
    (analyze_python_file (.err m) content).unused_functions = [] ∧
    (analyze_python_file (.err m) content).unused_variables = [] ∧
    (analyze_python_file (.err m) content).suggestions = [] :=
  ⟨rfl, rfl, rfl, rfl, rfl, rfl, rfl, rfl, rfl, rfl⟩

/-- C4: `analyze_python_file` is a total function (the source catches
every exception, so none propagates to the caller), and on every
successfully parsed input the returned finding is non-degraded with all
nine collection keys present. -/
theorem claim_C4 (body : List PyNode) (content : String) :
    (analyze_python_file (.ok body) content).error = none ∧
    pyFindingKeys (analyze_python_file (.ok body) content) =
      ["imports", "functions", "classes", "variables", "unused_imports",
       "unused_functions", "unused_variables", "potential_issues", "suggestions"] :=
  ⟨rfl, rfl⟩

/-- C5 (amended): framework detection is a deterministic function of the
path set, and the first table entry (in declaration order) that both
reaches the 2-match threshold and passes the Angular `angular.json`
proviso is returned; an Angular entry reaching the threshold without
`angular.json` in the path set is skipped rather than returned. -/
theorem claim_C5_amended (contents : List ContentItem)
    (pre post : List (String × List String)) (fw : String) (pats : List String)
    (htable : framework_patterns = pre ++ (fw, pats) :: post)
    (hpre : ∀ e ∈ pre, qualifiesB e.1 e.2 (allPaths contents) = false)
    (hq : qualifiesB fw pats (allPaths contents) = true) :
    detect_framework contents = some fw := by
  rw [detect_framework, htable]
  exact detectAux_first (allPaths contents) fw pats post pre hpre hq

/-- Witness for C5: a React repository snapshot hits the first table
entry. -/
theorem claim_C5_witness :
    detect_framework [⟨"package.json", "file"⟩, ⟨"src/App.js", "file"⟩] = some "React" :=
  claim_C5_amended [⟨"package.json", "file"⟩, ⟨"src/App.js", "file"⟩]
    [] (List.drop 1 framework_patterns) "React"
    ["package.json", "src/App.js", "src/index.js", "public/index.html"]
    rfl (by simp) (by decide)

/-- C5 counterexample: on a path set where both Angular (table position
2) and Nest.js (table position 11) reach the 2-match threshold but
`angular.json` is absent, detection returns Nest.js, not the earlier
Angular — so "the framework that appears earlier in the table is
returned" is false as stated. -/
theorem claim_C5_counterexample :
    detect_framework [⟨"src/main.ts", "file"⟩, ⟨"src/app/app.module.ts", "file"⟩,
        ⟨"nest-cli.json", "file"⟩] = some "Nest.js" ∧
    2 ≤ patternMatchCount
        ["angular.json", "src/main.ts", "src/app/app.module.ts", "src/index.html",
         "src/app/"]
        (allPaths [⟨"src/main.ts", "file"⟩, ⟨"src/app/app.module.ts", "file"⟩,
          ⟨"nest-cli.json", "file"⟩]) ∧
    2 ≤ patternMatchCount ["nest-cli.json", "src/main.ts", "src/app.module.ts"]
        (allPaths [⟨"src/main.ts", "file"⟩, ⟨"src/app/app.module.ts", "file"⟩,
          ⟨"nest-cli.json", "file"⟩]) ∧
    (framework_patterns.map Prod.fst).findIdx (· == "Angular") <
      (framework_patterns.map Prod.fst).findIdx (· == "Nest.js") := by
  refine ⟨?_, ?_, ?_, ?_⟩ <;> decide

/-- C6 (amended): whenever the lowercased path set contains no file
entry equal to `angular.json`, detection never returns Angular (the
check is made against the lowercased set, so a path differing only in
case does satisfy it — the counterexample's correction). -/
theorem claim_C6_amended (contents : List ContentItem)
    (h : (allPaths contents).contains "angular.json" = false) :
    detect_framework contents ≠ some "Angular" :=
  detectAux_angular framework_patterns (allPaths contents) h

/-- Witness for C6: the claim's own instance — `src/app.module.ts` and
`src/main.ts` without `angular.json` does not report Angular. -/
theorem claim_C6_witness :
    (allPaths [⟨"src/app.module.ts", "file"⟩, ⟨"src/main.ts", "file"⟩]).contains
        "angular.json" = false ∧
    detect_framework [⟨"src/app.module.ts", "file"⟩, ⟨"src/main.ts", "file"⟩] ≠
      some "Angular" :=
  ⟨by decide,
   claim_C6_amended [⟨"src/app.module.ts", "file"⟩, ⟨"src/main.ts", "file"⟩] (by decide)⟩

/-- C6 counterexample: a path set containing `ANGULAR.JSON` (but not the
literal path `angular.json`) is still reported as Angular, because the
membership test runs on lowercased paths — so "never returns Angular for
every input path set that does not contain the literal path
angular.json" is false as stated. -/
theorem claim_C6_counterexample :
    detect_framework [⟨"ANGULAR.JSON", "file"⟩, ⟨"src/main.ts", "file"⟩,
        ⟨"src/app/app.module.ts", "file"⟩] = some "Angular" ∧
    ([⟨"ANGULAR.JSON", "file"⟩, ⟨"src/main.ts", "file"⟩,
        ⟨"src/app/app.module.ts", "file"⟩].map ContentItem.path).contains
      "angular.json" = false := by
  refine ⟨?_, ?_⟩ <;> decide

/-- C7: on the exact input `"def foo():\n    pass\n"` (whose CPython
parse is a module with one `FunctionDef foo` holding its `arguments`
node and a `Pass` statement, here the two `other` children), the finding
has `functions = [foo]`, `unused_functions = [foo]`, empty
`unused_imports` and no error. -/
theorem claim_C7 :
    (analyze_python_file (.ok [.funcDef "foo" [.other [], .other []]])
        "def foo():\n    pass\n").functions = ["foo"] ∧
    (analyze_python_file (.ok [.funcDef "foo" [.other [], .other []]])
        "def foo():\n    pass\n").unused_functions = ["foo"] ∧
    (analyze_python_file (.ok [.funcDef "foo" [.other [], .other []]])
        "def foo():\n    pass\n").unused_imports = [] ∧
    (analyze_python_file (.ok [.funcDef "foo" [.other [], .other []]])
        "def foo():\n    pass\n").error = none := by
  refine ⟨?_, ?_, ?_, ?_⟩ <;> rfl

/-- C8: splitting any response into consecutive 2000-character chunks
(`response[i:i+2000]` for `i in range(0, len(response), 2000)`) and
concatenating the chunks in order reproduces the original text. -/
theorem claim_C8 (s : List Char) : (responseChunks s).flatten = s := by
  have h := chunksAux 2000 (by omega) s 0
  simpa [responseChunks] using h

/-- C9: a `.ts` or `.tsx` file dispatched through the repository-analysis
or upload branch reaches `analyze_javascript_file` with the defaulted
`language='javascript'`, so the TypeScript-only `any` suggestion is never
emitted for it. -/
theorem claim_C9 (ext content : String) (h : ext = ".ts" ∨ ext = ".tsx") :
    ∃ a, cogJsBranch ext content = some a ∧ anySuggestion ∉ a.suggestions := by
  have hb : cogJsBranch ext content = some (analyze_javascript_file_default content) := by
    rcases h with h | h <;> simp [cogJsBranch, h]
  refine ⟨_, hb, ?_⟩
  show anySuggestion ∉ jsSuggestions content "javascript" (jsFunctions content)
  intro hm
  simp only [jsSuggestions] at hm
  have hfalse : ¬(strContains content "any" && ("javascript" == "typescript")) = true := by
    simp
  rcases List.mem_append.mp hm with hm | hm
  · rcases List.mem_append.mp hm with hm | hm
    · rcases List.mem_append.mp hm with hm | hm
      · rcases List.mem_append.mp hm with hm | hm
        · exact absurd (mem_ite_singleton hm) (by decide)
        · exact absurd (mem_ite_singleton hm) (by decide)
      · rw [if_neg hfalse] at hm
        simp at hm
    · exact absurd (mem_ite_singleton hm) (by decide)
  · exact absurd (mem_ite_singleton hm) (by decide)

/-- Witness for C9: a TypeScript upload whose text contains `any`. -/
theorem claim_C9_witness :
    ∃ a, cogJsBranch ".ts" "let x: any = 1;" = some a ∧
      anySuggestion ∉ a.suggestions :=
  claim_C9 ".ts" "let x: any = 1;" (Or.inl rfl)

/-- C10: the structure report produced by the repository-analysis
command always has an empty recommendations list: `analyze_structure`
runs with the framework argument omitted (None), and the framework
detected afterwards only overwrites the `framework` field. -/
theorem claim_C10 (contents : List ContentItem) :
    (analyzeRepoStructure contents).recommendations = [] := by
  unfold analyzeRepoStructure
  cases h : detect_framework contents <;> simp [h] <;> rfl
